import Mathlib

/-!
Verification of the week-over-week metrics aggregation core of the
AI-News-Agent repository (src/main.py, src/state_manager.py).

Python floats are modelled as exact rationals (`Rat`); Python dicts built by
insertion are modelled as association lists in insertion order (`StrMap`),
which matches CPython's ordered-dict semantics: updating an existing key keeps
its position, a new key is appended.
-/

namespace AINewsAgent

/-- An incident record as read by the aggregation routines.  The aggregation
code in `main.py` accesses only the `severity` and `category` fields of each
incident dict; the remaining fields (id, summary, sources, ...) are carried
through untouched and are irrelevant to the aggregation math. -/
structure Incident where
  severity : Int
  category : String
deriving DecidableEq

/-- The fields of a prior metrics snapshot that the aggregation reads:
`total_incidents` (a JSON integer) and `avg_severity` (a JSON float,
modelled as a rational). -/
structure Snapshot where
  total_incidents : Int
  avg_severity : Rat
deriving DecidableEq

/-- The part of a prior per-company report read by
`calculate_company_metrics`: it accesses
`prior_company_data["weekly_metrics"]["total_incidents"]` and
`...["avg_severity"]`. -/
structure PriorCompanyData where
  weekly_metrics : Snapshot
deriving DecidableEq

/-- A Python `dict | None` argument, as tested by truthiness (`if prior:`).
A non-empty dict of the documented snapshot shape is `data`, the empty dict
`{}` is `emptyDict`, and Python `None` is `pyNone`.  Both `pyNone` and
`emptyDict` are falsy; only `data` is truthy. -/
inductive PyOpt (α : Type) where
  | pyNone : PyOpt α
  | emptyDict : PyOpt α
  | data (a : α) : PyOpt α
deriving DecidableEq

/-- Python truthiness of a `dict | None` value. -/
def PyOpt.truthy {α : Type} : PyOpt α → Bool
  | .data _ => true
  | _ => false

/-- A Python dict with string keys, in insertion order. -/
abbrev StrMap (α : Type) := List (String × α)

/-- `m.get(k, d)` on a Python dict: the value stored at key `k`, else the
default `d`. -/
def dictGet {α : Type} (m : StrMap α) (k : String) (d : α) : α :=
  match m with
  | [] => d
  | e :: rest => if e.1 == k then e.2 else dictGet rest k d

/-- One step of the `by_category` tally loop:
`by_category[cat] = by_category.get(cat, 0) + 1`.  An existing key keeps its
position in the dict, a new key is appended. -/
def bumpCategory (m : StrMap Nat) (cat : String) : StrMap Nat :=
  if m.any (fun p => p.1 == cat) then
    m.map (fun p => if p.1 == cat then (p.1, p.2 + 1) else p)
  else
    m ++ [(cat, 1)]

/-- The body of the `by_category` tally loop over the incident list:
`cat = incident['category']; by_category[cat] = by_category.get(cat, 0) + 1`. -/
def tallyStep (m : StrMap Nat) (i : Incident) : StrMap Nat :=
  bumpCategory m i.category

/-- `sum(i['severity'] for i in incidents)`. -/
def sumSeverity (incidents : List Incident) : Int :=
  (incidents.map (fun i => i.severity)).sum

/-- The trend assignment shared by both aggregation routines:
starts at `"Stable"`, becomes `"Worsening"` when
`wow_delta.get("total_incidents", 0) > 0` and `"Improving"` when `< 0`. -/
def trendOf (wow_delta : StrMap Rat) : String :=
  if dictGet wow_delta "total_incidents" 0 > 0 then "Worsening"
  else if dictGet wow_delta "total_incidents" 0 < 0 then "Improving"
  else "Stable"

/-- The metrics dict returned by `calculate_company_metrics`. -/
structure CompanyMetrics where
  total_incidents : Nat
  avg_severity : Rat
  count_sev_4_5 : Nat
  by_category : StrMap Nat
  wow_delta : StrMap Rat
  trend : String
deriving DecidableEq

/-- The summary dict returned by `calculate_portfolio_summary`: the same
fields plus `notes`. -/
structure PortfolioSummary where
  total_incidents : Nat
  avg_severity : Rat
  count_sev_4_5 : Nat
  by_category : StrMap Nat
  wow_delta : StrMap Rat
  trend : String
  notes : String
deriving DecidableEq

/-- `calculate_company_metrics(incidents, prior_company_data)` from
`src/main.py`.  `wow_delta` is populated only when `prior_company_data` is
truthy (a non-empty dict); the `total_incidents` delta is Python int
subtraction and the `avg_severity` delta float subtraction. -/
def calculate_company_metrics (incidents : List Incident)
    (prior_company_data : PyOpt PriorCompanyData) : CompanyMetrics :=
  let total_incidents : Nat := incidents.length
  let avg_severity : Rat :=
    if total_incidents > 0 then (sumSeverity incidents : Rat) / (total_incidents : Rat)
    else 0
  let count_sev_4_5 : Nat := (incidents.filter (fun i => 4 ≤ i.severity)).length
  let by_category : StrMap Nat :=
    incidents.foldl tallyStep []
  let wow_delta : StrMap Rat :=
    match prior_company_data with
    | .data p =>
        [("total_incidents",
            (((total_incidents : Int) - p.weekly_metrics.total_incidents : Int) : Rat)),
         ("avg_severity", avg_severity - p.weekly_metrics.avg_severity)]
    | _ => []
  { total_incidents := total_incidents
    avg_severity := avg_severity
    count_sev_4_5 := count_sev_4_5
    by_category := by_category
    wow_delta := wow_delta
    trend := trendOf wow_delta }

/-- `calculate_portfolio_summary(all_incidents, prior_summary)` from
`src/main.py`.  Identical math to `calculate_company_metrics`, except the
prior snapshot's fields are read directly (`prior_summary["total_incidents"]`)
and a `notes` field is added, chosen by the truthiness of `prior_summary`. -/
def calculate_portfolio_summary (all_incidents : List Incident)
    (prior_summary : PyOpt Snapshot) : PortfolioSummary :=
  let total_incidents : Nat := all_incidents.length
  let avg_severity : Rat :=
    if total_incidents > 0 then (sumSeverity all_incidents : Rat) / (total_incidents : Rat)
    else 0
  let count_sev_4_5 : Nat := (all_incidents.filter (fun i => 4 ≤ i.severity)).length
  let by_category : StrMap Nat :=
    all_incidents.foldl tallyStep []
  let wow_delta : StrMap Rat :=
    match prior_summary with
    | .data p =>
        [("total_incidents", (((total_incidents : Int) - p.total_incidents : Int) : Rat)),
         ("avg_severity", avg_severity - p.avg_severity)]
    | _ => []
  { total_incidents := all_incidents.length
    avg_severity := avg_severity
    count_sev_4_5 := count_sev_4_5
    by_category := by_category
    wow_delta := wow_delta
    trend := trendOf wow_delta
    notes :=
      if ¬ prior_summary.truthy then "Initial run, no trend data available."
      else "Week-over-week comparison." }

/-- A per-company entry of the assembled report (`company_report` in
`main.py`). -/
structure CompanyReport where
  company_name : String
  ticker : String
  incidents : List Incident
  weekly_metrics : CompanyMetrics
deriving DecidableEq

/-- The assembled weekly report (`final_report` in `main.py`). -/
structure Report where
  week_ending : String
  portfolio_summary : PortfolioSummary
  companies : List CompanyReport
deriving DecidableEq

/-!
State store (`src/state_manager.py`).  The filesystem under the working
directory is modelled as a list of (path, stored report) pairs in creation
order; `open(path, "w")` overwrites the file at its existing path or creates
a new one, and `json.dump` followed by `json.load` of a JSON-compatible
report dict is the identity, so a stored file is modelled by the report
value itself.
-/

/-- The on-disk JSON files, keyed by path. -/
abbrev FileSystem := List (String × Report)

/-- `os.path.join(REPORTS_DIR, f"report-{week_key}.json")` with
`REPORTS_DIR = "reports"`. -/
def report_filepath (week_key : String) : String :=
  "reports/report-" ++ week_key ++ ".json"

/-- `save_state(week_key, report)` from `src/state_manager.py`: writes the
report JSON to `reports/report-{week_key}.json`, overwriting an existing
file (directory creation has no observable effect in this model). -/
def save_state (week_key : String) (report : Report) (fs : FileSystem) : FileSystem :=
  if fs.any (fun p => p.1 == report_filepath week_key) then
    fs.map (fun p => if p.1 == report_filepath week_key then (p.1, report) else p)
  else
    fs ++ [(report_filepath week_key, report)]

/-- `load_prior_state(week_key)` from `src/state_manager.py`: returns `None`
when `reports/report-{week_key}.json` does not exist, else the parsed
report. -/
def load_prior_state (week_key : String) (fs : FileSystem) : Option Report :=
  match fs with
  | [] => none
  | e :: rest =>
    if e.1 == report_filepath week_key then some e.2
    else load_prior_state week_key rest

/-!
Period keys (`main.py`, `main()` step 1).  Python dates are modelled as
(year, month, day) triples over the proleptic Gregorian calendar, converted
to a day count since 1970-01-01 for arithmetic; `timedelta(days=7)`
subtraction is subtraction of 7 on the day count.  All dates involved are
after 1970, so all intermediate quantities below are nonnegative and integer
division/modulo agree with Python's floor semantics.
-/

/-- Days since 1970-01-01 of a Gregorian date (Howard Hinnant's
`days_from_civil`). -/
def daysFromCivil (y m d : Int) : Int :=
  let y := if m ≤ 2 then y - 1 else y
  let era := y / 400
  let yoe := y - era * 400
  let mp := (m + 9) % 12
  let doy := (153 * mp + 2) / 5 + d - 1
  let doe := yoe * 365 + yoe / 4 - yoe / 100 + doy
  era * 146097 + doe - 719468

/-- Gregorian (year, month, day) of a day count since 1970-01-01 (Howard
Hinnant's `civil_from_days`). -/
def civilFromDays (z : Int) : Int × Int × Int :=
  let z := z + 719468
  let era := z / 146097
  let doe := z - era * 146097
  let yoe := (doe - doe / 1460 + doe / 36524 - doe / 146096) / 365
  let y := yoe + era * 400
  let doy := doe - (365 * yoe + yoe / 4 - yoe / 100)
  let mp := (5 * doy + 2) / 153
  let d := doy - (153 * mp + 2) / 5 + 1
  let m := mp + (if mp < 10 then 3 else -9)
  (y + (if m ≤ 2 then 1 else 0), m, d)

/-- `date.year` of a day count: the Gregorian calendar year. -/
def yearOf (z : Int) : Int := (civilFromDays z).1

/-- ISO-8601 weekday (1 = Monday .. 7 = Sunday); 1970-01-01 was a
Thursday. -/
def isoWeekday (z : Int) : Int := (z + 3) % 7 + 1

/-- The Thursday of the ISO week containing `z`. -/
def isoThursday (z : Int) : Int := z + (4 - isoWeekday z)

/-- `date.isocalendar()[1]`: the ISO-8601 week number (1..53), computed as
the ordinal week of the Thursday of the date's week within that Thursday's
calendar year. -/
def isoWeekNumber (z : Int) : Int :=
  (isoThursday z - daysFromCivil (yearOf (isoThursday z)) 1 1) / 7 + 1

/-- `date.isocalendar()[0]`: the ISO-8601 year, the calendar year of the
Thursday of the date's week. -/
def isoYear (z : Int) : Int := yearOf (isoThursday z)

/-- `week_key = f"{portfolio_name}-{run_date.year}-W{run_date.isocalendar()[1]}"`
(`main.py` line 104): the CALENDAR year of the run date together with its ISO
week number. -/
def week_key (portfolio_name : String) (y m d : Int) : String :=
  portfolio_name ++ "-" ++ toString y ++ "-W" ++ toString (isoWeekNumber (daysFromCivil y m d))

/-- `last_week_key` (`main.py` line 108): the calendar year and ISO week
number, both recomputed from `run_date - timedelta(days=7)`. -/
def last_week_key (portfolio_name : String) (y m d : Int) : String :=
  let z := daysFromCivil y m d - 7
  portfolio_name ++ "-" ++ toString (yearOf z) ++ "-W" ++ toString (isoWeekNumber z)

/-!
Run orchestration (`main.py` `main()`, steps 2-4).  The external
collaborators (news fetch, LLM analysis) are abstracted as the per-company
incident lists handed to the loop; portfolio rows carry the company name and
ticker read by the loop.
-/

/-- One portfolio row together with the incidents the (external) analysis
collaborator produced for it this run. -/
structure CompanyInput where
  company_name : String
  ticker : String
  incidents : List Incident
deriving DecidableEq

/-- The prior-period state as loaded from the state store: the saved report's
`portfolio_summary` and `companies` entries, restricted to the fields the
current run reads. -/
structure PriorCompanyEntry where
  company_name : String
  weekly_metrics : Snapshot
deriving DecidableEq

/-- The fields of a previously saved report read by `main()`. -/
structure PriorState where
  portfolio_summary : Snapshot
  companies : List PriorCompanyEntry
deriving DecidableEq

/-- `prior_summary = prior_state.get("portfolio_summary") if prior_state else None`
(`main.py` line 127).  A saved report's summary dict is non-empty, hence
truthy. -/
def priorSummaryOf (prior_state : Option PriorState) : PyOpt Snapshot :=
  match prior_state with
  | some st => .data st.portfolio_summary
  | none => .pyNone

/-- `prior_companies.get(company_name)` where
`prior_companies = {c["company_name"]: c for c in prior_state.get("companies", [])}`
(`main.py` lines 128 and 164).  A dict comprehension keeps the LAST entry for
a duplicated name, hence the reversed search; a found company dict is
non-empty, hence truthy. -/
def priorCompanyOf (prior_state : Option PriorState) (name : String) :
    PyOpt PriorCompanyData :=
  match prior_state with
  | none => .pyNone
  | some st =>
    match st.companies.reverse.find? (fun c => c.company_name == name) with
    | some c => .data ⟨c.weekly_metrics⟩
    | none => .pyNone

/-- The body of the company loop of `main()` (step 3): the `company_report`
dict appended to `output_companies_data`, with `weekly_metrics` computed
against that company's prior entry. -/
def buildCompanyReport (prior_state : Option PriorState) (c : CompanyInput) :
    CompanyReport :=
  { company_name := c.company_name
    ticker := c.ticker
    incidents := c.incidents
    weekly_metrics :=
      calculate_company_metrics c.incidents (priorCompanyOf prior_state c.company_name) }

/-- The company loop and report assembly of `main()` (steps 3-5): for each
portfolio row, build its company report; accumulate every incident into
`all_incidents` in loop order; compute the portfolio summary over
`all_incidents`; assemble the final report. -/
def main_run (inputs : List CompanyInput) (prior_state : Option PriorState)
    (to_date : String) : Report :=
  let all_incidents : List Incident := (inputs.map (fun c => c.incidents)).flatten
  let companies : List CompanyReport := inputs.map (buildCompanyReport prior_state)
  { week_ending := to_date
    portfolio_summary := calculate_portfolio_summary all_incidents (priorSummaryOf prior_state)
    companies := companies }

/-!
Auxiliary lemmas about the `by_category` tally loop.
-/

/-- The sum of the values of a dict. -/
def valsSum (m : StrMap Nat) : Nat := (m.map (fun e => e.2)).sum

/-- `Nodup` of the keys of a dict: the invariant every Python dict enjoys. -/
def keysNodup {α : Type} (m : StrMap α) : Prop := (m.map (fun e => e.1)).Nodup

lemma map_bump_eq_self {c : String} (m : StrMap Nat)
    (h : ∀ p ∈ m, p.1 ≠ c) :
    m.map (fun p => if p.1 == c then (p.1, p.2 + 1) else p) = m := by
  induction m with
  | nil => rfl
  | cons e rest ih =>
      have he : (e.1 == c) = false := by
        simpa using h e (List.mem_cons_self _ _)
      simp only [List.map_cons, he, Bool.false_eq_true, if_false]
      rw [ih (fun p hp => h p (List.mem_cons_of_mem _ hp))]

lemma dictGet_of_not_any {α : Type} {k : String} (m : StrMap α) (d : α)
    (h : (m.any (fun p => p.1 == k)) = false) :
    dictGet m k d = d := by
  induction m with
  | nil => rfl
  | cons e rest ih =>
      simp only [List.any_cons, Bool.or_eq_false_iff] at h
      simp [dictGet, h.1, ih h.2]

lemma dictGet_append_single {α : Type} (m : StrMap α) (c k : String) (v d : α) :
    dictGet (m ++ [(c, v)]) k d =
      if (m.any (fun p => p.1 == k)) = true then dictGet m k d
      else (if c == k then v else d) := by
  induction m with
  | nil => simp [dictGet]
  | cons e rest ih =>
      by_cases hek : (e.1 == k) = true
      · simp [dictGet, List.any_cons, hek]
      · simp only [Bool.not_eq_true] at hek
        simp only [List.cons_append, dictGet, hek, Bool.false_eq_true, if_false,
          List.any_cons, Bool.false_or]
        exact ih

lemma dictGet_map_bump {c k : String} (m : StrMap Nat) (hck : c ≠ k) (d : Nat) :
    dictGet (m.map (fun p => if p.1 == c then (p.1, p.2 + 1) else p)) k d =
      dictGet m k d := by
  induction m with
  | nil => rfl
  | cons e rest ih =>
      simp only [List.map_cons]
      by_cases hec : (e.1 == c) = true
      · have hek : (e.1 == k) = false := by
          simp only [beq_iff_eq] at hec ⊢
          rw [hec]; simpa using hck
        rw [if_pos hec]
        simp only [dictGet, hek, Bool.false_eq_true, if_false]
        simpa using ih
      · simp only [Bool.not_eq_true] at hec
        rw [if_neg (by simp [hec])]
        by_cases hek : (e.1 == k) = true
        · simp [dictGet, hek]
        · simp only [Bool.not_eq_true] at hek
          simp only [dictGet, hek, Bool.false_eq_true, if_false]
          simpa using ih

lemma dictGet_map_bump_self {c : String} (m : StrMap Nat)
    (h : (m.any (fun p => p.1 == c)) = true) :
    dictGet (m.map (fun p => if p.1 == c then (p.1, p.2 + 1) else p)) c 0 =
      dictGet m c 0 + 1 := by
  induction m with
  | nil => simp at h
  | cons e rest ih =>
      simp only [List.map_cons]
      by_cases hec : (e.1 == c) = true
      · rw [if_pos hec]
        simp [dictGet, hec]
      · simp only [Bool.not_eq_true] at hec
        simp only [List.any_cons, hec, Bool.false_or] at h
        rw [if_neg (by simp [hec])]
        simp only [dictGet, hec, Bool.false_eq_true, if_false]
        simpa using ih h

lemma dictGet_bumpCategory (m : StrMap Nat) (c k : String) :
    dictGet (bumpCategory m c) k 0 =
      dictGet m k 0 + (if c = k then 1 else 0) := by
  by_cases hany : (m.any (fun p => p.1 == c)) = true
  · rw [bumpCategory, if_pos hany]
    by_cases hck : c = k
    · subst hck
      simpa using dictGet_map_bump_self m hany
    · rw [dictGet_map_bump m hck, if_neg hck]
      rfl
  · simp only [Bool.not_eq_true] at hany
    rw [bumpCategory, if_neg (by simp [hany]), dictGet_append_single]
    by_cases hck : c = k
    · subst hck
      rw [if_neg (by simp [hany]), dictGet_of_not_any m 0 hany]
      simp
    · have hck' : (c == k) = false := by simp [hck]
      by_cases hk : (m.any (fun p => p.1 == k)) = true
      · simp [hk, hck]
      · simp only [Bool.not_eq_true] at hk
        rw [if_neg (by simp [hk]), dictGet_of_not_any m 0 hk]
        simp [hck', hck]

lemma keysNodup_bumpCategory (m : StrMap Nat) (c : String) (h : keysNodup m) :
    keysNodup (bumpCategory m c) := by
  by_cases hany : (m.any (fun p => p.1 == c)) = true
  · rw [bumpCategory, if_pos hany]
    unfold keysNodup at h ⊢
    rw [List.map_map]
    have : m.map ((fun e => e.1) ∘ fun p => if p.1 == c then (p.1, p.2 + 1) else p) =
        m.map (fun e => e.1) := by
      apply List.map_congr_left
      intro p _
      by_cases hp : p.1 = c <;> simp [hp]
    rw [this]; exact h
  · simp only [Bool.not_eq_true] at hany
    rw [bumpCategory, if_neg (by simp [hany])]
    unfold keysNodup at h ⊢
    rw [List.map_append]
    rw [List.nodup_append]
    refine ⟨h, List.nodup_singleton _, ?_⟩
    intro a ha hb
    simp only [List.map_cons, List.map_nil, List.mem_singleton] at hb
    subst hb
    rcases List.mem_map.mp ha with ⟨p, hp, hpc⟩
    have := List.any_eq_false.mp hany p hp
    simp only [beq_iff_eq] at this
    exact this hpc

lemma valsSum_bumpCategory (m : StrMap Nat) (c : String) (h : keysNodup m) :
    valsSum (bumpCategory m c) = valsSum m + 1 := by
  by_cases hany : (m.any (fun p => p.1 == c)) = true
  · rw [bumpCategory, if_pos hany]
    induction m with
    | nil => simp at hany
    | cons e rest ih =>
        have h' : e.1 ∉ rest.map (fun e => e.1) ∧ (rest.map (fun e => e.1)).Nodup := by
          have hh := h
          unfold keysNodup at hh
          rw [List.map_cons, List.nodup_cons] at hh
          exact hh
        by_cases hec : (e.1 == c) = true
        · have hrest : ∀ p ∈ rest, p.1 ≠ c := by
            intro p hp hpc
            exact h'.1 (by
              rw [show e.1 = c from by simpa using hec, ← hpc]
              exact List.mem_map.mpr ⟨p, hp, rfl⟩)
          simp only [List.map_cons, if_pos hec, map_bump_eq_self rest hrest]
          simp [valsSum]
          omega
        · have hrest : (rest.any (fun p => p.1 == c)) = true := by
            simpa [List.any_cons, hec] using hany
          have hnd : keysNodup rest := h'.2
          simp only [List.map_cons, hec, Bool.false_eq_true, if_false]
          have := ih hnd hrest
          simp only [valsSum, List.map_cons, List.sum_cons] at this ⊢
          omega
  · simp only [Bool.not_eq_true] at hany
    rw [bumpCategory, if_neg (by simp [hany])]
    simp [valsSum]

lemma foldl_tally_keysNodup (l : List Incident) (m : StrMap Nat)
    (h : keysNodup m) : keysNodup (l.foldl tallyStep m) := by
  induction l generalizing m with
  | nil => exact h
  | cons i rest ih =>
      exact ih _ (keysNodup_bumpCategory m i.category h)

lemma foldl_tally_valsSum (l : List Incident) (m : StrMap Nat)
    (h : keysNodup m) : valsSum (l.foldl tallyStep m) = valsSum m + l.length := by
  induction l generalizing m with
  | nil => rfl
  | cons i rest ih =>
      rw [List.foldl_cons]
      show valsSum (List.foldl tallyStep (bumpCategory m i.category) rest) = _
      rw [ih _ (keysNodup_bumpCategory m i.category h)]
      rw [valsSum_bumpCategory m i.category h]
      simp only [List.length_cons]
      omega

lemma foldl_tally_dictGet (l : List Incident) (m : StrMap Nat) (k : String) :
    dictGet (l.foldl tallyStep m) k 0 =
      dictGet m k 0 + l.countP (fun i => i.category == k) := by
  induction l generalizing m with
  | nil => rfl
  | cons i rest ih =>
      rw [List.foldl_cons, ih, tallyStep, dictGet_bumpCategory]
      rw [List.countP_cons]
      by_cases hik : i.category = k
      · simp only [hik, if_pos rfl]
        simp
        omega
      · simp only [if_neg hik]
        simp [hik]

lemma foldl_tally_pos (l : List Incident) (m : StrMap Nat)
    (h : ∀ e ∈ m, 1 ≤ e.2) : ∀ e ∈ l.foldl tallyStep m, 1 ≤ e.2 := by
  induction l generalizing m with
  | nil => exact h
  | cons i rest ih =>
      refine ih _ ?_
      intro e he
      unfold tallyStep bumpCategory at he
      by_cases hany : (m.any (fun p => p.1 == i.category)) = true
      · rw [if_pos hany] at he
        rcases List.mem_map.mp he with ⟨p, hp, hpe⟩
        by_cases hpc : (p.1 == i.category) = true
        · rw [if_pos hpc] at hpe
          subst hpe
          omega
        · rw [if_neg hpc] at hpe
          subst hpe
          exact h p hp
      · rw [if_neg hany] at he
        rcases List.mem_append.mp he with hm | hs
        · exact h e hm
        · simp only [List.mem_singleton] at hs
          subst hs
          exact le_refl 1

lemma key_mem_iff_dictGet_pos (m : StrMap Nat) (h : ∀ e ∈ m, 1 ≤ e.2)
    (k : String) : (∃ e ∈ m, e.1 = k) ↔ 0 < dictGet m k 0 := by
  induction m with
  | nil => simp [dictGet]
  | cons e rest ih =>
      by_cases hek : (e.1 == k) = true
      · simp only [dictGet, hek, if_true]
        constructor
        · intro _
          exact lt_of_lt_of_le Nat.zero_lt_one (h e (List.mem_cons_self _ _))
        · intro _
          exact ⟨e, List.mem_cons_self _ _, by simpa using hek⟩
      · simp only [dictGet, hek, Bool.false_eq_true, if_false]
        rw [← ih (fun p hp => h p (List.mem_cons_of_mem _ hp))]
        constructor
        · rintro ⟨p, hp, hpk⟩
          rcases List.mem_cons.mp hp with rfl | hp'
          · exact absurd hpk (by simpa using hek)
          · exact ⟨p, hp', hpk⟩
        · rintro ⟨p, hp, hpk⟩
          exact ⟨p, List.mem_cons_of_mem _ hp, hpk⟩

/-!
Auxiliary lemmas about the state store and the trend rule.
-/

lemma load_of_not_any (key : String) (fs : FileSystem)
    (h : (fs.any (fun p => p.1 == report_filepath key)) = false) :
    load_prior_state key fs = none := by
  induction fs with
  | nil => rfl
  | cons e rest ih =>
      simp only [List.any_cons, Bool.or_eq_false_iff] at h
      simp [load_prior_state, h.1, ih h.2]

lemma load_append_single (key : String) (fs : FileSystem) (r : Report) :
    load_prior_state key (fs ++ [(report_filepath key, r)]) =
      if (fs.any (fun p => p.1 == report_filepath key)) = true then
        load_prior_state key fs
      else some r := by
  induction fs with
  | nil => simp [load_prior_state]
  | cons e rest ih =>
      by_cases hek : (e.1 == report_filepath key) = true
      · simp [load_prior_state, List.any_cons, hek]
      · simp only [Bool.not_eq_true] at hek
        simp only [List.cons_append, load_prior_state, hek, Bool.false_eq_true,
          if_false, List.any_cons, Bool.false_or]
        exact ih

lemma load_map_overwrite (key : String) (fs : FileSystem) (r : Report)
    (h : (fs.any (fun p => p.1 == report_filepath key)) = true) :
    load_prior_state key
      (fs.map (fun p => if p.1 == report_filepath key then (p.1, r) else p)) =
      some r := by
  induction fs with
  | nil => simp at h
  | cons e rest ih =>
      simp only [List.map_cons]
      by_cases hek : (e.1 == report_filepath key) = true
      · rw [if_pos hek]
        simp [load_prior_state, hek]
      · simp only [Bool.not_eq_true] at hek
        simp only [List.any_cons, hek, Bool.false_or] at h
        rw [if_neg (by simp [hek])]
        simp only [load_prior_state, hek, Bool.false_eq_true, if_false]
        exact ih h

lemma load_save (key : String) (r : Report) (fs : FileSystem) :
    load_prior_state key (save_state key r fs) = some r := by
  by_cases hany : (fs.any (fun p => p.1 == report_filepath key)) = true
  · rw [save_state, if_pos hany]
    exact load_map_overwrite key fs r hany
  · simp only [Bool.not_eq_true] at hany
    rw [save_state, if_neg (by simp [hany]), load_append_single, if_neg (by simp [hany])]

lemma trendOf_pair (v x : Rat) :
    trendOf [("total_incidents", v), ("avg_severity", x)] =
      (if v > 0 then "Worsening" else if v < 0 then "Improving" else "Stable") := by
  simp [trendOf, dictGet]

lemma trendOf_nil : trendOf [] = "Stable" := by
  simp [trendOf, dictGet]

lemma trendOf_int_delta (n : Nat) (t : Int) (x : Rat) :
    trendOf [("total_incidents", (((n : Int) - t : Int) : Rat)), ("avg_severity", x)] =
      (if t < (n : Int) then "Worsening"
       else if (n : Int) < t then "Improving"
       else "Stable") := by
  rw [trendOf_pair]
  have hgt : ((((n : Int) - t : Int) : Rat) > 0) ↔ (t < (n : Int)) := by
    rw [gt_iff_lt, show (0 : Rat) = ((0 : Int) : Rat) from rfl, Int.cast_lt]
    omega
  have hlt : ((((n : Int) - t : Int) : Rat) < 0) ↔ ((n : Int) < t) := by
    rw [show (0 : Rat) = ((0 : Int) : Rat) from rfl, Int.cast_lt]
    omega
  simp only [hgt, hlt]

lemma sumSeverity_bounds (incidents : List Incident)
    (h : ∀ i ∈ incidents, 1 ≤ i.severity ∧ i.severity ≤ 5) :
    (incidents.length : Int) ≤ sumSeverity incidents ∧
      sumSeverity incidents ≤ 5 * (incidents.length : Int) := by
  induction incidents with
  | nil => simp [sumSeverity]
  | cons i rest ih =>
      have hi := h i (List.mem_cons_self _ _)
      have hr := ih (fun j hj => h j (List.mem_cons_of_mem _ hj))
      simp only [sumSeverity, List.map_cons, List.sum_cons, List.length_cons] at hr ⊢
      push_cast
      constructor
      · linarith [hr.1, hi.1]
      · linarith [hr.2, hi.2]

/-!
Claim theorems.
-/

/-- C1: for every incident list and every optional prior snapshot, the trend
label produced by aggregation (company scope and portfolio scope) is
determined solely by the week-over-week incident-count delta: `"Worsening"`
iff the delta is positive, `"Improving"` iff negative, `"Stable"` otherwise
(including when the prior is absent and the `total_incidents` key defaults
to 0) — independent of the `avg_severity` delta. -/
theorem C1_trend_determined_by_count_delta (incidents : List Incident) :
    (∀ s : Snapshot,
      (calculate_company_metrics incidents (PyOpt.data ⟨s⟩)).trend =
        (if s.total_incidents < (incidents.length : Int) then "Worsening"
         else if (incidents.length : Int) < s.total_incidents then "Improving"
         else "Stable") ∧
      (calculate_portfolio_summary incidents (PyOpt.data s)).trend =
        (if s.total_incidents < (incidents.length : Int) then "Worsening"
         else if (incidents.length : Int) < s.total_incidents then "Improving"
         else "Stable")) ∧
    (calculate_company_metrics incidents PyOpt.pyNone).trend = "Stable" ∧
    (calculate_portfolio_summary incidents PyOpt.pyNone).trend = "Stable" := by
  refine ⟨fun s => ⟨?_, ?_⟩, ?_, ?_⟩
  · show trendOf [("total_incidents", _), ("avg_severity", _)] = _
    exact trendOf_int_delta incidents.length s.total_incidents _
  · show trendOf [("total_incidents", _), ("avg_severity", _)] = _
    exact trendOf_int_delta incidents.length s.total_incidents _
  · show trendOf [] = _
    exact trendOf_nil
  · show trendOf [] = _
    exact trendOf_nil

/-- C3: with a supplied prior snapshot, `wow_delta` holds exactly the keys
`total_incidents` (current count minus prior count, an integer difference)
and `avg_severity` (current average minus prior average), in both aggregation
routines; with an absent prior, `wow_delta` is the empty mapping (a normal
result, not an error). -/
theorem C3_wow_delta_shape (incidents : List Incident) :
    (∀ s : Snapshot,
      (calculate_company_metrics incidents (PyOpt.data ⟨s⟩)).wow_delta =
        [("total_incidents",
            (((incidents.length : Int) - s.total_incidents : Int) : Rat)),
         ("avg_severity",
            (calculate_company_metrics incidents (PyOpt.data ⟨s⟩)).avg_severity -
              s.avg_severity)] ∧
      (calculate_portfolio_summary incidents (PyOpt.data s)).wow_delta =
        [("total_incidents",
            (((incidents.length : Int) - s.total_incidents : Int) : Rat)),
         ("avg_severity",
            (calculate_portfolio_summary incidents (PyOpt.data s)).avg_severity -
              s.avg_severity)]) ∧
    (calculate_company_metrics incidents PyOpt.pyNone).wow_delta = [] ∧
    (calculate_portfolio_summary incidents PyOpt.pyNone).wow_delta = [] :=
  ⟨fun _ => ⟨rfl, rfl⟩, rfl, rfl⟩

/-- C4: the aggregated `avg_severity` is exactly 0 for the empty incident
list, and for a non-empty list it is the arithmetic mean of the severities
(`avg_severity * total_incidents = sum of severities`, exactly, in the
rational model of Python floats). -/
theorem C4_avg_severity_mean (incidents : List Incident)
    (prior : PyOpt PriorCompanyData) :
    (incidents = [] → (calculate_company_metrics incidents prior).avg_severity = 0) ∧
    (incidents ≠ [] →
      (calculate_company_metrics incidents prior).avg_severity *
          ((calculate_company_metrics incidents prior).total_incidents : Rat) =
        (sumSeverity incidents : Rat)) := by
  constructor
  · intro h
    subst h
    rfl
  · intro h
    have hn : 0 < incidents.length := List.length_pos.mpr h
    have havg : (calculate_company_metrics incidents prior).avg_severity =
        (sumSeverity incidents : Rat) / (incidents.length : Rat) := by
      show (if incidents.length > 0 then
          (sumSeverity incidents : Rat) / (incidents.length : Rat) else 0) = _
      rw [if_pos hn]
    have htot : ((calculate_company_metrics incidents prior).total_incidents : Rat) =
        (incidents.length : Rat) := rfl
    rw [havg, htot]
    have hn0 : ((incidents.length : Rat)) ≠ 0 := by
      exact_mod_cast Nat.pos_iff_ne_zero.mp hn
    exact div_mul_cancel₀ _ hn0

/-- Witness for C4 at concrete inputs: the empty list and a two-element
list. -/
theorem C4_avg_severity_mean_witness :
    (calculate_company_metrics [] PyOpt.pyNone).avg_severity = 0 ∧
    (calculate_company_metrics
        [⟨4, "Governance/Legal"⟩, ⟨2, "Environmental"⟩] PyOpt.pyNone).avg_severity *
        ((calculate_company_metrics
          [⟨4, "Governance/Legal"⟩, ⟨2, "Environmental"⟩] PyOpt.pyNone).total_incidents : Rat) =
      (sumSeverity [⟨4, "Governance/Legal"⟩, ⟨2, "Environmental"⟩] : Rat) :=
  ⟨(C4_avg_severity_mean [] PyOpt.pyNone).1 rfl,
   (C4_avg_severity_mean [⟨4, "Governance/Legal"⟩, ⟨2, "Environmental"⟩]
      PyOpt.pyNone).2 (by simp)⟩

/-- The same optional prior snapshot, handed to `calculate_company_metrics`
in its prior-company-report form (nested under `weekly_metrics`). -/
def asCompanyPrior : PyOpt Snapshot → PyOpt PriorCompanyData
  | .pyNone => .pyNone
  | .emptyDict => .emptyDict
  | .data s => .data ⟨s⟩

/-- C7: the company-scope and portfolio-scope aggregation routines compute
identical math: on the same incident list and the same prior snapshot (in
the respective form each routine reads), all six shared fields agree; the
portfolio routine differs only by its extra `notes` field. -/
theorem C7_company_portfolio_same_math (incidents : List Incident)
    (prior : PyOpt Snapshot) :
    (calculate_company_metrics incidents (asCompanyPrior prior)).total_incidents =
      (calculate_portfolio_summary incidents prior).total_incidents ∧
    (calculate_company_metrics incidents (asCompanyPrior prior)).avg_severity =
      (calculate_portfolio_summary incidents prior).avg_severity ∧
    (calculate_company_metrics incidents (asCompanyPrior prior)).count_sev_4_5 =
      (calculate_portfolio_summary incidents prior).count_sev_4_5 ∧
    (calculate_company_metrics incidents (asCompanyPrior prior)).by_category =
      (calculate_portfolio_summary incidents prior).by_category ∧
    (calculate_company_metrics incidents (asCompanyPrior prior)).wow_delta =
      (calculate_portfolio_summary incidents prior).wow_delta ∧
    (calculate_company_metrics incidents (asCompanyPrior prior)).trend =
      (calculate_portfolio_summary incidents prior).trend := by
  cases prior <;> exact ⟨rfl, rfl, rfl, rfl, rfl, rfl⟩

/-- C9: aggregating with a present-but-empty prior dict yields exactly the
same metrics as aggregating with `None` (empty `wow_delta`, trend
`"Stable"`), because the source tests the prior by truthiness. -/
theorem C9_empty_prior_dict_like_none (incidents : List Incident) :
    calculate_company_metrics incidents PyOpt.emptyDict =
      calculate_company_metrics incidents PyOpt.pyNone ∧
    (calculate_company_metrics incidents PyOpt.emptyDict).wow_delta = [] ∧
    (calculate_company_metrics incidents PyOpt.emptyDict).trend = "Stable" :=
  ⟨rfl, rfl, trendOf_nil⟩

/-- C8: the aggregated `by_category` mapping tallies incidents by category:
the sum of its values equals `total_incidents`, every stored value is at
least 1, and a category appears as a key exactly when some incident carries
it — so a category with zero incidents is omitted, never present with
value 0. -/
theorem C8_by_category_tally (incidents : List Incident)
    (prior : PyOpt PriorCompanyData) :
    valsSum (calculate_company_metrics incidents prior).by_category =
      (calculate_company_metrics incidents prior).total_incidents ∧
    (∀ e ∈ (calculate_company_metrics incidents prior).by_category, 1 ≤ e.2) ∧
    (∀ k : String,
      (∃ e ∈ (calculate_company_metrics incidents prior).by_category, e.1 = k) ↔
        ∃ i ∈ incidents, i.category = k) := by
  have hbc : (calculate_company_metrics incidents prior).by_category =
      incidents.foldl tallyStep [] := rfl
  have hpos : ∀ e ∈ (calculate_company_metrics incidents prior).by_category, 1 ≤ e.2 := by
    rw [hbc]
    exact foldl_tally_pos incidents [] (by simp)
  refine ⟨?_, hpos, ?_⟩
  · rw [hbc, foldl_tally_valsSum incidents [] List.nodup_nil]
    show valsSum [] + incidents.length = incidents.length
    simp [valsSum]
  · intro k
    rw [key_mem_iff_dictGet_pos _ hpos k, hbc, foldl_tally_dictGet]
    have h0 : dictGet ([] : StrMap Nat) k 0 = 0 := rfl
    rw [h0, Nat.zero_add, List.countP_pos_iff]
    constructor
    · rintro ⟨i, hi, hik⟩
      exact ⟨i, hi, by simpa using hik⟩
    · rintro ⟨i, hi, hik⟩
      exact ⟨i, hi, by simpa using hik⟩

/-- Witness for C8: on a concrete one-incident list the category key is
present in the tally. -/
theorem C8_by_category_tally_witness :
    ∃ i ∈ ([⟨4, "Governance/Legal"⟩] : List Incident),
      i.category = "Governance/Legal" :=
  ((C8_by_category_tally [⟨4, "Governance/Legal"⟩] PyOpt.pyNone).2.2
      "Governance/Legal").mp
    ⟨("Governance/Legal", 1), by decide, rfl⟩

/-- C10: when every severity lies in [1,5], the aggregated snapshot
satisfies `count_sev_4_5 ≤ total_incidents`, every `by_category` value is at
least 1, and for a non-empty list the average severity lies in [1,5]. -/
theorem C10_range_invariants (incidents : List Incident)
    (prior : PyOpt PriorCompanyData)
    (h : ∀ i ∈ incidents, 1 ≤ i.severity ∧ i.severity ≤ 5) :
    (calculate_company_metrics incidents prior).count_sev_4_5 ≤
      (calculate_company_metrics incidents prior).total_incidents ∧
    (∀ e ∈ (calculate_company_metrics incidents prior).by_category, 1 ≤ e.2) ∧
    (incidents ≠ [] →
      1 ≤ (calculate_company_metrics incidents prior).avg_severity ∧
      (calculate_company_metrics incidents prior).avg_severity ≤ 5) := by
  refine ⟨?_, ?_, ?_⟩
  · show (incidents.filter (fun i => 4 ≤ i.severity)).length ≤ incidents.length
    exact List.length_filter_le _ _
  · show ∀ e ∈ incidents.foldl tallyStep [], 1 ≤ e.2
    exact foldl_tally_pos incidents [] (by simp)
  · intro hne
    have hn : 0 < incidents.length := List.length_pos.mpr hne
    have hb := sumSeverity_bounds incidents h
    have havg : (calculate_company_metrics incidents prior).avg_severity =
        (sumSeverity incidents : Rat) / (incidents.length : Rat) := by
      show (if incidents.length > 0 then
          (sumSeverity incidents : Rat) / (incidents.length : Rat) else 0) = _
      rw [if_pos hn]
    have hn0 : (0 : Rat) < (incidents.length : Rat) := by exact_mod_cast hn
    rw [havg]
    constructor
    · rw [le_div_iff₀ hn0, one_mul]
      exact_mod_cast hb.1
    · rw [div_le_iff₀ hn0]
      exact_mod_cast hb.2

/-- Witness for C10 at a concrete in-range incident list. -/
theorem C10_range_invariants_witness :
    1 ≤ (calculate_company_metrics
        [⟨4, "Governance/Legal"⟩, ⟨2, "Environmental"⟩] PyOpt.pyNone).avg_severity ∧
    (calculate_company_metrics
        [⟨4, "Governance/Legal"⟩, ⟨2, "Environmental"⟩] PyOpt.pyNone).avg_severity ≤ 5 :=
  (C10_range_invariants [⟨4, "Governance/Legal"⟩, ⟨2, "Environmental"⟩]
      PyOpt.pyNone (by decide)).2.2 (by simp)

/-- C6: saving a report under a period key and loading that key returns the
same report; a later save under the same key overwrites the earlier one; and
loading a key that was never saved returns `none` rather than failing. -/
theorem C6_state_store_roundtrip (key : String) (r r2 : Report)
    (fs : FileSystem) :
    load_prior_state key (save_state key r fs) = some r ∧
    load_prior_state key (save_state key r2 (save_state key r fs)) = some r2 ∧
    ((∀ e ∈ fs, e.1 ≠ report_filepath key) → load_prior_state key fs = none) := by
  refine ⟨load_save key r fs, load_save key r2 _, fun h => ?_⟩
  apply load_of_not_any
  rw [List.any_eq_false]
  intro p hp
  simpa using h p hp

/-- Witness for C6 at a concrete key, report and empty filesystem. -/
theorem C6_state_store_roundtrip_witness :
    load_prior_state "Port-2025-W2"
        (save_state "Port-2025-W2"
          ⟨"2025-01-10", ⟨0, 0, 0, [], [], "Stable", "Initial run, no trend data available."⟩, []⟩
          []) =
      some ⟨"2025-01-10", ⟨0, 0, 0, [], [], "Stable", "Initial run, no trend data available."⟩, []⟩ ∧
    load_prior_state "Port-2025-W2" [] = none :=
  ⟨(C6_state_store_roundtrip "Port-2025-W2"
      ⟨"2025-01-10", ⟨0, 0, 0, [], [], "Stable", "Initial run, no trend data available."⟩, []⟩
      ⟨"2025-01-10", ⟨0, 0, 0, [], [], "Stable", "Initial run, no trend data available."⟩, []⟩
      []).1,
   (C6_state_store_roundtrip "Port-2025-W2"
      ⟨"2025-01-10", ⟨0, 0, 0, [], [], "Stable", "Initial run, no trend data available."⟩, []⟩
      ⟨"2025-01-10", ⟨0, 0, 0, [], [], "Stable", "Initial run, no trend data available."⟩, []⟩
      []).2.2 (by simp)⟩

/-- C5: in every report assembled by one run of the orchestrator, the
portfolio summary's `total_incidents` is the sum of the companies'
`weekly_metrics.total_incidents`, and its `by_category` is the key-wise sum
of the companies' `by_category` mappings. -/
theorem C5_portfolio_sums_companies (inputs : List CompanyInput)
    (prior_state : Option PriorState) (to_date : String) :
    (main_run inputs prior_state to_date).portfolio_summary.total_incidents =
      ((main_run inputs prior_state to_date).companies.map
        (fun c => c.weekly_metrics.total_incidents)).sum ∧
    ∀ k : String,
      dictGet (main_run inputs prior_state to_date).portfolio_summary.by_category k 0 =
        ((main_run inputs prior_state to_date).companies.map
          (fun c => dictGet c.weekly_metrics.by_category k 0)).sum := by
  have hcomp : (main_run inputs prior_state to_date).companies =
      inputs.map (buildCompanyReport prior_state) := rfl
  constructor
  · rw [hcomp, List.map_map]
    show ((inputs.map (fun c => c.incidents)).flatten).length = _
    rw [List.length_flatten, List.map_map]
    congr 1
  · intro k
    rw [hcomp, List.map_map]
    show dictGet (((inputs.map (fun c => c.incidents)).flatten).foldl tallyStep []) k 0 = _
    rw [foldl_tally_dictGet]
    have h0 : dictGet ([] : StrMap Nat) k 0 = 0 := rfl
    rw [h0, Nat.zero_add, List.countP_flatten, List.map_map]
    congr 1
    apply List.map_congr_left
    intro c _
    show c.incidents.countP (fun i => i.category == k) =
      dictGet (c.incidents.foldl tallyStep []) k 0
    rw [foldl_tally_dictGet, h0, Nat.zero_add]

/-- C2 evidence: the period keys are built from the CALENDAR year, not the
ISO year.  For the run date 2025-12-29 (a Monday, ISO week 1 of ISO year
2026, with run date − 7 days = 2025-12-22 in ISO week 52 of 2025) the code
produces the current key "P-2025-W1" and the prior key "P-2025-W52": the two
keys carry the SAME year 2025, and the current key collides with the key of
a run dated 2025-01-02 (ISO week 1 of 2025). -/
theorem C2_period_key_uses_calendar_year :
    week_key "P" 2025 12 29 = "P-2025-W1" ∧
    last_week_key "P" 2025 12 29 = "P-2025-W52" ∧
    isoWeekNumber (daysFromCivil 2025 12 29) = 1 ∧
    isoYear (daysFromCivil 2025 12 29) = 2026 ∧
    isoWeekNumber (daysFromCivil 2025 12 29 - 7) = 52 ∧
    isoYear (daysFromCivil 2025 12 29 - 7) = 2025 ∧
    civilFromDays (daysFromCivil 2025 12 29 - 7) = (2025, 12, 22) ∧
    week_key "P" 2025 1 2 = week_key "P" 2025 12 29 := by
  refine ⟨?_, ?_, by decide, by decide, by decide, by decide, by decide, ?_⟩ <;> rfl

end AINewsAgent
